import Mathlib

/-!
Shallow embedding of Hector's time series container (`src/headers/data/tseries.hpp`).

Times and numeric values are modelled as rationals (the C++ `double` times used
by the claims are exact in ℚ, and the two `std::numeric_limits<double>` bounds
appearing in the source are exact rationals as well).  The `std::map` is an
association list kept sorted by key.  The interpolation engine
(`h_interpolator`, whose source is not part of this core) is modelled by its
contract: `newdata` stores the engine's own copy of the (x, y) samples, and
evaluation is an arbitrary deterministic function `F` of the fitted data and
the query point, passed as a parameter (the spline math is a black box).
Exceptions (`H_ASSERT` / `H_THROW`) become `Except` error kinds.
-/

set_option maxRecDepth 8000

deriving instance DecidableEq for Except

namespace HectorModel

/-- Error kinds of the container, one per distinct `H_ASSERT`/`H_THROW` site. -/
inductive TSErr where
  | EmptySeries
  | InsufficientSamples
  | InterpolationNotPermitted
  | ExtrapolationNotPermitted
deriving DecidableEq, Repr

/-- `std::map<double, T>::operator[] =`: insert or overwrite, keeping keys sorted. -/
def mapInsert (t : ℚ) (d : α) : List (ℚ × α) → List (ℚ × α)
  | [] => [(t, d)]
  | (k, v) :: rest =>
    if t < k then (t, d) :: (k, v) :: rest
    else if t = k then (t, d) :: rest
    else (k, v) :: mapInsert t d rest

/-- `std::map::find`: exact-key lookup. -/
def mapFind (t : ℚ) : List (ℚ × α) → Option α
  | [] => none
  | (k, v) :: rest => if k = t then some v else mapFind t rest

/-- Key of `(*userData.begin())`, defaulting (unreachably, guarded by the
size assertion) to 0 on an empty map. -/
def firstKey (l : List (ℚ × α)) : ℚ := (l.head?.map Prod.fst).getD 0

/-- Key of `(*userData.rbegin())`, same convention. -/
def lastKey (l : List (ℚ × α)) : ℚ := (l.getLast?.map Prod.fst).getD 0

/-- `std::numeric_limits<double>::min()`: the smallest positive normal
double, 2^(-1022).  This (positive!) value is the constructor's default
interpolation cutoff. -/
def dblMin : ℚ := mkRat 1 (2 ^ 1022)

/-- `std::numeric_limits<double>::max()` = (2^53 - 1) * 2^971. -/
def dblMax : ℚ := mkRat (Int.ofNat ((2 ^ 53 - 1) * 2 ^ 971)) 1

/-- State of a `tseries<T_data>` together with its owned `h_interpolator`:
`fitted` is the engine's own copy of the sample data handed over by the last
`newdata` call (empty before any fit). -/
structure tseries (α : Type) where
  mapdata : List (ℚ × α)
  lastInterpYear : ℚ
  endinterp_allowed : Bool
  dirty : Bool
  fitted : List (ℚ × ℚ)
  name : String
deriving DecidableEq, Repr

/-- The x/y arrays handed to `interpolator.newdata` by the generic
`interp_helper::interp`: keys paired with the double conversion of each value. -/
def refit (toMag : α → ℚ) (userData : List (ℚ × α)) : List (ℚ × ℚ) :=
  userData.map (fun p => (p.1, toMag p.2))

/-- `interp_helper<T_data>::interp` (generic template).  `toMag`/`ofMag` model
the implicit `T_data` ↔ `double` conversions the template requires; `F` is the
engine's evaluation of its fitted data at a point.  Returns the result
together with the engine state and dirty flag as left behind (both are
mutated through references in the C++, including on the extrapolation throw). -/
def interpHelper (toMag : α → ℚ) (ofMag : ℚ → α)
    (F : List (ℚ × ℚ) → ℚ → ℚ)
    (userData : List (ℚ × α)) (fitted : List (ℚ × ℚ))
    (isDirty endinterpAllowed : Bool) (index : ℚ) :
    Except TSErr α × List (ℚ × ℚ) × Bool :=
  if userData.length ≤ 1 then (.error .InsufficientSamples, fitted, isDirty)
  else
    let st := if isDirty then (refit toMag userData, false) else (fitted, isDirty)
    if (index < firstKey userData ∨ lastKey userData < index) ∧ endinterpAllowed = false then
      (.error .ExtrapolationNotPermitted, st.1, st.2)
    else
      (.ok (ofMag (F st.1 index)), st.1, st.2)

namespace tseries

/-- `tseries::tseries()`: `set_interp(numeric_limits<double>::min(), false, DEFAULT)`
followed by `dirty = false`. -/
def new : tseries α :=
  { mapdata := [], lastInterpYear := dblMin, endinterp_allowed := false,
    dirty := false, fitted := [], name := "?" }

/-- `tseries::set`: insert/overwrite; mark dirty only when `t < lastInterpYear`. -/
def set (S : tseries α) (t : ℚ) (d : α) : tseries α :=
  { S with mapdata := mapInsert t d S.mapdata,
           dirty := if t < S.lastInterpYear then true else S.dirty }

/-- `tseries::exists`: exact-key membership. -/
def existsAt (S : tseries α) (t : ℚ) : Bool := (mapFind t S.mapdata).isSome

/-- `tseries::get`: exact match returns the stored value untouched; on a miss
below the cutoff, delegate to `interp_helper` (whose reference writes to the
interpolator and the mutable dirty flag persist); otherwise throw. -/
def get (toMag : α → ℚ) (ofMag : ℚ → α) (F : List (ℚ × ℚ) → ℚ → ℚ)
    (S : tseries α) (t : ℚ) : Except TSErr α × tseries α :=
  match mapFind t S.mapdata with
  | some v => (.ok v, S)
  | none =>
    if t < S.lastInterpYear then
      let r := interpHelper toMag ofMag F S.mapdata S.fitted S.dirty S.endinterp_allowed t
      (r.1, { S with fitted := r.2.1, dirty := r.2.2 })
    else
      (.error .InterpolationNotPermitted, S)

/-- `tseries::set_interp`: set cutoff and extrapolation flag, mark dirty
(`set_method` carries no observable state beyond the abstract engine). -/
def set_interp (S : tseries α) (ia : ℚ) (eia : Bool) : tseries α :=
  { S with lastInterpYear := ia, endinterp_allowed := eia, dirty := true }

/-- `tseries::allowInterp`: cutoff becomes `numeric_limits<double>::max()`. -/
def allowInterp (S : tseries α) (eia : Bool) : tseries α :=
  S.set_interp dblMax eia

/-- `tseries::first`: `H_ASSERT(!mapdata.empty())`, then the first key. -/
def first (S : tseries α) : Except TSErr ℚ :=
  if S.mapdata.isEmpty then .error .EmptySeries else .ok (firstKey S.mapdata)

/-- `tseries::last`: `H_ASSERT(!mapdata.empty())`, then the last key. -/
def last (S : tseries α) : Except TSErr ℚ :=
  if S.mapdata.isEmpty then .error .EmptySeries else .ok (lastKey S.mapdata)

/-- `tseries::size`. -/
def size (S : tseries α) : Nat := S.mapdata.length

/-- `tseries::allowPartialInterp`: `set_interp(last(), eia, DEFAULT)`; the
`last()` call asserts non-emptiness, so the whole call can fail. -/
def allowPartialInterp (S : tseries α) (eia : Bool) : Except TSErr (tseries α) :=
  (S.last).map (fun l => S.set_interp l eia)

end tseries

/-- Modelled from the spec: `unitval` (quantity-with-unit, `unitval.hpp` is not
part of this core's sources) is a numeric magnitude tagged with a unit;
`v.value(v.units())` reads the magnitude expressed in the value's own unit. -/
structure unitval where
  val : ℚ
  units : String
deriving DecidableEq, Repr

/-- The y array handed to `newdata` by the `unitval` specialization:
`(*itr).second.value((*itr).second.units())`. -/
def refitU (userData : List (ℚ × unitval)) : List (ℚ × ℚ) :=
  userData.map (fun p => (p.1, p.2.val))

/-- `interp_helper<unitval>::interp`: as the generic version, but magnitudes
are read via `.value(.units())` and the result is wrapped in the units of the
series' first sample. -/
def interpHelperU (F : List (ℚ × ℚ) → ℚ → ℚ)
    (userData : List (ℚ × unitval)) (fitted : List (ℚ × ℚ))
    (isDirty endinterpAllowed : Bool) (index : ℚ) :
    Except TSErr unitval × List (ℚ × ℚ) × Bool :=
  if userData.length ≤ 1 then (.error .InsufficientSamples, fitted, isDirty)
  else
    let st := if isDirty then (refitU userData, false) else (fitted, isDirty)
    if (index < firstKey userData ∨ lastKey userData < index) ∧ endinterpAllowed = false then
      (.error .ExtrapolationNotPermitted, st.1, st.2)
    else
      (.ok ⟨F st.1 index, ((userData.head?.map (fun p => p.2.units)).getD "")⟩, st.1, st.2)

/-- `tseries<unitval>::get`, dispatching to the `unitval` specialization. -/
def tseries.getU (F : List (ℚ × ℚ) → ℚ → ℚ)
    (S : tseries unitval) (t : ℚ) : Except TSErr unitval × tseries unitval :=
  match mapFind t S.mapdata with
  | some v => (.ok v, S)
  | none =>
    if t < S.lastInterpYear then
      let r := interpHelperU F S.mapdata S.fitted S.dirty S.endinterp_allowed t
      (r.1, { S with fitted := r.2.1, dirty := r.2.2 })
    else
      (.error .InterpolationNotPermitted, S)

end HectorModel

namespace HectorModel

/-! ### Helper lemmas -/

/-- Inserting at key `t` makes lookup at `t` return the inserted value. -/
theorem mapFind_mapInsert_self (t : ℚ) (d : α) (l : List (ℚ × α)) :
    mapFind t (mapInsert t d l) = some d := by
  induction l with
  | nil => simp [mapInsert, mapFind]
  | cons p rest ih =>
    obtain ⟨k, v⟩ := p
    by_cases h1 : t < k
    · simp [mapInsert, h1, mapFind]
    · by_cases h2 : t = k
      · simp [mapInsert, h1, h2, mapFind]
      · have h3 : ¬ k = t := fun e => h2 e.symm
        simp [mapInsert, h1, h2, mapFind, h3, ih]

/-- The engine data `interp_helper` leaves behind: refitted from the samples
when dirty, untouched otherwise. -/
def fitIfDirty (toMag : α → ℚ) (S : tseries α) : List (ℚ × ℚ) :=
  if S.dirty then refit toMag S.mapdata else S.fitted

/-- Characterization of `get` on a miss below the cutoff with enough samples:
the engine is refitted if dirty, the dirty flag is cleared, and the result is
the extrapolation-gate check followed by engine evaluation. -/
theorem get_miss (toMag : α → ℚ) (ofMag : ℚ → α) (F : List (ℚ × ℚ) → ℚ → ℚ)
    (S : tseries α) (t : ℚ) (hm : mapFind t S.mapdata = none)
    (hc : t < S.lastInterpYear) (hs : 1 < S.mapdata.length) :
    tseries.get toMag ofMag F S t =
      ((if (t < firstKey S.mapdata ∨ lastKey S.mapdata < t) ∧ S.endinterp_allowed = false
          then .error .ExtrapolationNotPermitted
          else .ok (ofMag (F (fitIfDirty toMag S) t))),
       { S with fitted := fitIfDirty toMag S, dirty := false }) := by
  simp only [tseries.get, hm, interpHelper, fitIfDirty]
  rw [if_pos hc, if_neg (Nat.not_le.2 hs)]
  cases hd : S.dirty <;> split <;> simp_all

/-- `get` on a miss below the cutoff with at most one sample: fails with the
size assertion, all state unchanged. -/
theorem get_miss_insufficient (toMag : α → ℚ) (ofMag : ℚ → α)
    (F : List (ℚ × ℚ) → ℚ → ℚ) (S : tseries α) (t : ℚ)
    (hm : mapFind t S.mapdata = none) (hc : t < S.lastInterpYear)
    (hs : S.mapdata.length ≤ 1) :
    tseries.get toMag ofMag F S t = (.error .InsufficientSamples, S) := by
  simp only [tseries.get, hm, interpHelper]
  rw [if_pos hc, if_pos hs]

/-- `get` on a miss at or beyond the cutoff: refused, state unchanged. -/
theorem get_miss_refused (toMag : α → ℚ) (ofMag : ℚ → α)
    (F : List (ℚ × ℚ) → ℚ → ℚ) (S : tseries α) (t : ℚ)
    (hm : mapFind t S.mapdata = none) (hc : ¬ t < S.lastInterpYear) :
    tseries.get toMag ofMag F S t = (.error .InterpolationNotPermitted, S) := by
  simp only [tseries.get, hm]
  rw [if_neg hc]

/-! ### Claims -/

/-- C1: for every series S and time t with `S.exists(t)`, `S.get(t)` returns
exactly the last value passed to `S.set(t, v)` at that time, regardless of the
interpolation/extrapolation policy and of the dirty flag; the exact-match path
never consults the interpolation engine (the result does not depend on `F`)
and never changes the dirty flag (the whole state is returned untouched). -/
theorem c1_exact_get (toMag : α → ℚ) (ofMag : ℚ → α) (F : List (ℚ × ℚ) → ℚ → ℚ)
    (S : tseries α) (t : ℚ) (v w : α)
    (h : mapFind t S.mapdata = some v) :
    tseries.get toMag ofMag F S t = (.ok v, S) ∧
    tseries.get toMag ofMag F (S.set t w) t = (.ok w, S.set t w) := by
  constructor
  · simp only [tseries.get, h]
  · simp only [tseries.get, tseries.set, mapFind_mapInsert_self]

theorem c1_exact_get_witness :
    tseries.get id id (fun _ _ => (0:ℚ)) (tseries.new.set 1 (10:ℚ)) 1
      = (.ok 10, tseries.new.set 1 10) ∧
    tseries.get id id (fun _ _ => (0:ℚ)) ((tseries.new.set 1 (10:ℚ)).set 1 7) 1
      = (.ok 7, (tseries.new.set 1 (10:ℚ)).set 1 7) :=
  c1_exact_get id id (fun _ _ => (0:ℚ)) (tseries.new.set 1 10) 1 10 7 (by decide)

end HectorModel

namespace HectorModel

/-- A concrete engine evaluation (any deterministic function will do for the
concrete scenarios): evaluates every fitted model to 0. -/
def cF : List (ℚ × ℚ) → ℚ → ℚ := fun _ _ => 0

/-- A freshly constructed series (default cutoff `dblMin`) with samples at
times -2 and -1, both below the default cutoff (hence dirty). -/
def c2S0 : tseries ℚ := (tseries.new.set (-2) 10).set (-1) 20

/-- `c2S0` after a first `get` at -1/2: refitted on {-2, -1}, which failed
with the extrapolation gate (eia is false and -1/2 is beyond the last key). -/
def c2S1 : tseries ℚ := (tseries.get id id cF c2S0 (mkRat (-1) 2)).2

/-- C2 counterexample: on `c2S1`, `get(-1/2)` fails (extrapolation not
permitted), yet after `set(1, 30)` — where 1 ≥ the cutoff `dblMin` —
`get(-1/2)` succeeds: the new sample extended the `[first(), last()]` range
consulted by the extrapolation gate, so a set at or beyond the cutoff does
change the result of `get` at another time. -/
theorem c2_set_beyond_cutoff_cex :
    dblMin ≤ 1 ∧
    (tseries.get id id cF c2S1 (mkRat (-1) 2)).1 = .error .ExtrapolationNotPermitted ∧
    (tseries.get id id cF ((c2S1.set 1 30)) (mkRat (-1) 2)).1 = .ok 0 := by
  decide

/-- C2 amended: setting a value at a time `t ≥ interpolationCutoff` never
marks the series dirty, never triggers a refit (the engine's fitted data are
untouched), and never changes the policy; it is not, however, free of effect
on other `get` results, since it extends the stored sample range consulted by
the extrapolation gate and joins any later refit. -/
theorem c2_set_beyond_cutoff (S : tseries α) (t : ℚ) (v : α)
    (h : S.lastInterpYear ≤ t) :
    (S.set t v).dirty = S.dirty ∧ (S.set t v).fitted = S.fitted ∧
    (S.set t v).lastInterpYear = S.lastInterpYear ∧
    (S.set t v).endinterp_allowed = S.endinterp_allowed := by
  refine ⟨?_, rfl, rfl, rfl⟩
  simp [tseries.set, not_lt.2 h]

theorem c2_set_beyond_cutoff_witness :
    ((tseries.new.set 1 (0:ℚ)).dirty = (tseries.new : tseries ℚ).dirty ∧
     (tseries.new.set 1 (0:ℚ)).fitted = (tseries.new : tseries ℚ).fitted ∧
     (tseries.new.set 1 (0:ℚ)).lastInterpYear = (tseries.new : tseries ℚ).lastInterpYear ∧
     (tseries.new.set 1 (0:ℚ)).endinterp_allowed
        = (tseries.new : tseries ℚ).endinterp_allowed) :=
  c2_set_beyond_cutoff tseries.new 1 0 (by decide)

/-- C3: the constructor's "no interpolation permitted" default cutoff is
`std::numeric_limits<double>::min()`, which is the smallest positive normal
double, not the most negative one.  On a freshly constructed series with
samples at 1 and 2 (policy never changed), a miss at time 0 — which the claim
says must fail with `InterpolationNotPermitted` — is delegated to the
interpolation engine (0 < 2^(-1022)) and fails with the extrapolation gate
instead. -/
theorem c3_default_cutoff_is_positive :
    (0:ℚ) < dblMin ∧
    ((tseries.new.set 1 (10:ℚ)).set 2 20).lastInterpYear = dblMin ∧
    (tseries.get id id cF ((tseries.new.set 1 (10:ℚ)).set 2 20) 0).1
      = .error .ExtrapolationNotPermitted ∧
    ¬ (tseries.get id id cF ((tseries.new.set 1 (10:ℚ)).set 2 20) 0).1
      = .error .InterpolationNotPermitted := by
  decide

/-- C4: on a miss at `t` below the cutoff, with at least two samples and `t`
strictly outside the closed range `[first(), last()]`, the call succeeds with
the engine's value exactly when extrapolation is allowed, and fails with the
extrapolation gate when it is not. -/
theorem c4_extrapolation_gate (toMag : α → ℚ) (ofMag : ℚ → α)
    (F : List (ℚ × ℚ) → ℚ → ℚ) (S : tseries α) (t : ℚ)
    (hm : mapFind t S.mapdata = none) (hc : t < S.lastInterpYear)
    (hs : 1 < S.mapdata.length)
    (hout : t < firstKey S.mapdata ∨ lastKey S.mapdata < t) :
    (S.endinterp_allowed = true →
      (tseries.get toMag ofMag F S t).1 = .ok (ofMag (F (fitIfDirty toMag S) t))) ∧
    (S.endinterp_allowed = false →
      (tseries.get toMag ofMag F S t).1 = .error .ExtrapolationNotPermitted) := by
  rw [get_miss toMag ofMag F S t hm hc hs]
  constructor
  · intro he; simp [he]
  · intro he; simp [he, hout]

theorem c4_extrapolation_gate_witness :
    (c2S0.endinterp_allowed = true →
      (tseries.get id id cF c2S0 (-5)).1 = .ok (id (cF (fitIfDirty id c2S0) (-5)))) ∧
    (c2S0.endinterp_allowed = false →
      (tseries.get id id cF c2S0 (-5)).1 = .error .ExtrapolationNotPermitted) :=
  c4_extrapolation_gate id id cF c2S0 (-5) (by decide) (by decide) (by decide)
    (by decide)

end HectorModel

namespace HectorModel

/-- The series of Scenario A: samples {(1990, 10), (2000, 20), (2010, 15)},
cutoff 2010 and extrapolation disallowed via `allowPartialInterp(false)`
(which also marks the series dirty). -/
def c5S : tseries ℚ :=
  { mapdata := [(1990, 10), (2000, 20), (2010, 15)], lastInterpYear := 2010,
    endinterp_allowed := false, dirty := true, fitted := [], name := "?" }

/-- C5 counterexample: building the Scenario A series through the public API
yields exactly `c5S`, and `get(2020)` on it fails with
`InterpolationNotPermitted` — not `ExtrapolationNotPermitted` as claimed —
because 2020 is not below the cutoff 2010, so the policy check refuses the
query before extrapolation is ever considered. -/
theorem c5_scenarioA_cex :
    ((((tseries.new.set 1990 10).set 2000 20).set 2010 (15:ℚ)).allowPartialInterp false)
      = .ok c5S ∧
    (tseries.get id id cF c5S 2020).1 = .error .InterpolationNotPermitted ∧
    ¬ (tseries.get id id cF c5S 2020).1 = .error .ExtrapolationNotPermitted := by
  decide

/-- C5 amended: for the Scenario A series (samples {(1990, 10), (2000, 20),
(2010, 15)}, cutoff 2010, extrapolation disallowed), `get(2020)` fails with
the `InterpolationNotPermitted` error kind, whatever the engine computes. -/
theorem c5_scenarioA (F : List (ℚ × ℚ) → ℚ → ℚ) :
    (tseries.get id id F c5S 2020).1 = .error .InterpolationNotPermitted := by
  rw [get_miss_refused id id F c5S 2020 (by decide) (by decide)]

/-- C6: if a `get` at a miss time succeeds (necessarily via interpolation), a
second `get` at the same time with no intervening mutation returns the same
value and leaves the state exactly as the first call left it; the dirty flag
is false after the first successful interpolated `get` (hence the second call
performs no refit and it stays false). -/
theorem c6_get_idempotent (toMag : α → ℚ) (ofMag : ℚ → α)
    (F : List (ℚ × ℚ) → ℚ → ℚ) (S : tseries α) (t : ℚ) (y : α)
    (hm : mapFind t S.mapdata = none)
    (h1 : (tseries.get toMag ofMag F S t).1 = .ok y) :
    (tseries.get toMag ofMag F S t).2.dirty = false ∧
    tseries.get toMag ofMag F (tseries.get toMag ofMag F S t).2 t
      = (.ok y, (tseries.get toMag ofMag F S t).2) := by
  by_cases hc : t < S.lastInterpYear
  · by_cases hs : 1 < S.mapdata.length
    · have e1 := get_miss toMag ofMag F S t hm hc hs
      by_cases hgate :
          (t < firstKey S.mapdata ∨ lastKey S.mapdata < t) ∧ S.endinterp_allowed = false
      · rw [e1, if_pos hgate] at h1; exact absurd h1 (by simp)
      · rw [if_neg hgate] at e1
        have hy : ofMag (F (fitIfDirty toMag S) t) = y := by
          rw [e1] at h1; exact Except.ok.inj h1
        have hfit : fitIfDirty toMag
            { mapdata := S.mapdata, lastInterpYear := S.lastInterpYear,
              endinterp_allowed := S.endinterp_allowed, dirty := false,
              fitted := fitIfDirty toMag S, name := S.name }
            = fitIfDirty toMag S := by
          simp [fitIfDirty]
        rw [e1, hy]
        refine ⟨rfl, ?_⟩
        show tseries.get toMag ofMag F
          { mapdata := S.mapdata, lastInterpYear := S.lastInterpYear,
            endinterp_allowed := S.endinterp_allowed, dirty := false,
            fitted := fitIfDirty toMag S, name := S.name } t = _
        rw [get_miss toMag ofMag F
          { mapdata := S.mapdata, lastInterpYear := S.lastInterpYear,
            endinterp_allowed := S.endinterp_allowed, dirty := false,
            fitted := fitIfDirty toMag S, name := S.name } t hm hc hs]
        dsimp only
        rw [hfit, if_neg hgate, hy]
    · rw [get_miss_insufficient toMag ofMag F S t hm hc (Nat.not_lt.1 hs)] at h1
      exact absurd h1 (by simp)
  · rw [get_miss_refused toMag ofMag F S t hm hc] at h1
    exact absurd h1 (by simp)

theorem c6_get_idempotent_witness :
    (tseries.get id id cF c2S0 (mkRat (-3) 2)).2.dirty = false ∧
    tseries.get id id cF (tseries.get id id cF c2S0 (mkRat (-3) 2)).2 (mkRat (-3) 2)
      = (.ok 0, (tseries.get id id cF c2S0 (mkRat (-3) 2)).2) :=
  c6_get_idempotent id id cF c2S0 (mkRat (-3) 2) 0 (by decide) (by decide)

/-- C7: `allowPartialInterp(e)` succeeds on a non-empty series, setting the
cutoff to the value `last()` had at the moment of the call, the extrapolation
flag to `e`, and the dirty flag; subsequent `set` calls never move the cutoff,
whatever time they are at. -/
theorem c7_partial_interp_snapshot (S : tseries α) (e : Bool) (l : ℚ)
    (h : S.last = .ok l) :
    ∃ S', S.allowPartialInterp e = .ok S' ∧
      S'.lastInterpYear = l ∧ S'.endinterp_allowed = e ∧ S'.dirty = true ∧
      S'.mapdata = S.mapdata ∧
      ∀ (t : ℚ) (v : α), (S'.set t v).lastInterpYear = l ∧
        (S'.set t v).endinterp_allowed = e := by
  refine ⟨S.set_interp l e, ?_, rfl, rfl, rfl, rfl, fun t v => ⟨rfl, rfl⟩⟩
  rw [tseries.allowPartialInterp, h]
  rfl

theorem c7_partial_interp_snapshot_witness :
    ∃ S', (tseries.new.set 5 (3:ℚ)).allowPartialInterp true = .ok S' ∧
      S'.lastInterpYear = 5 ∧ S'.endinterp_allowed = true ∧ S'.dirty = true ∧
      S'.mapdata = (tseries.new.set 5 (3:ℚ)).mapdata ∧
      ∀ (t : ℚ) (v : ℚ), (S'.set t v).lastInterpYear = 5 ∧
        (S'.set t v).endinterp_allowed = true :=
  c7_partial_interp_snapshot (tseries.new.set 5 (3:ℚ)) true 5 (by decide)

/-- C8: a series with exactly one sample fails any interpolated `get` (miss
below the cutoff) with the size assertion, and a series with zero samples
fails both `first()` and `last()` with the emptiness assertion. -/
theorem c8_boundary_failures (toMag : α → ℚ) (ofMag : ℚ → α)
    (F : List (ℚ × ℚ) → ℚ → ℚ) (S T : tseries α) (t : ℚ)
    (h1 : S.mapdata.length = 1) (hm : mapFind t S.mapdata = none)
    (hc : t < S.lastInterpYear) (h0 : T.mapdata = []) :
    (tseries.get toMag ofMag F S t).1 = .error .InsufficientSamples ∧
    T.first = .error .EmptySeries ∧ T.last = .error .EmptySeries := by
  refine ⟨?_, ?_, ?_⟩
  · rw [get_miss_insufficient toMag ofMag F S t hm hc (by omega)]
  · simp [tseries.first, h0]
  · simp [tseries.last, h0]

theorem c8_boundary_failures_witness :
    (tseries.get id id cF (tseries.new.set (-1) (5:ℚ)) (-2)).1
      = .error .InsufficientSamples ∧
    (tseries.new : tseries ℚ).first = .error .EmptySeries ∧
    (tseries.new : tseries ℚ).last = .error .EmptySeries :=
  c8_boundary_failures id id cF (tseries.new.set (-1) (5:ℚ)) tseries.new (-2)
    (by decide) (by decide) (by decide) (by decide)

/-- C10: a `get` that fails the extrapolation gate (miss below the cutoff, at
least two samples, time outside the closed sample range, extrapolation
disallowed) is not state-preserving when the series was dirty: the engine has
already been refitted from the current samples and the dirty flag cleared
before the failure is raised. -/
theorem c10_failing_get_mutates (toMag : α → ℚ) (ofMag : ℚ → α)
    (F : List (ℚ × ℚ) → ℚ → ℚ) (S : tseries α) (t : ℚ)
    (hm : mapFind t S.mapdata = none) (hc : t < S.lastInterpYear)
    (hs : 1 < S.mapdata.length)
    (hout : t < firstKey S.mapdata ∨ lastKey S.mapdata < t)
    (heia : S.endinterp_allowed = false) (hd : S.dirty = true) :
    (tseries.get toMag ofMag F S t).1 = .error .ExtrapolationNotPermitted ∧
    (tseries.get toMag ofMag F S t).2.dirty = false ∧
    (tseries.get toMag ofMag F S t).2.fitted = refit toMag S.mapdata := by
  rw [get_miss toMag ofMag F S t hm hc hs]
  refine ⟨?_, rfl, ?_⟩
  · rw [if_pos ⟨hout, heia⟩]
  · simp [fitIfDirty, hd]

theorem c10_failing_get_mutates_witness :
    (tseries.get id id cF c2S0 (-5)).1 = .error .ExtrapolationNotPermitted ∧
    (tseries.get id id cF c2S0 (-5)).2.dirty = false ∧
    (tseries.get id id cF c2S0 (-5)).2.fitted = refit id c2S0.mapdata :=
  c10_failing_get_mutates id id cF c2S0 (-5) (by decide) (by decide) (by decide)
    (by decide) (by decide) (by decide)

end HectorModel

namespace HectorModel

/-- The engine data `interp_helper<unitval>` leaves behind. -/
def fitIfDirtyU (S : tseries unitval) : List (ℚ × ℚ) :=
  if S.dirty then refitU S.mapdata else S.fitted

/-- `getU` on a miss below the cutoff with enough samples (unitval analogue
of `get_miss`). -/
theorem getU_miss (F : List (ℚ × ℚ) → ℚ → ℚ) (S : tseries unitval) (t : ℚ)
    (hm : mapFind t S.mapdata = none) (hc : t < S.lastInterpYear)
    (hs : 1 < S.mapdata.length) :
    tseries.getU F S t =
      ((if (t < firstKey S.mapdata ∨ lastKey S.mapdata < t) ∧ S.endinterp_allowed = false
          then .error .ExtrapolationNotPermitted
          else .ok ⟨F (fitIfDirtyU S) t,
                    ((S.mapdata.head?.map (fun p => p.2.units)).getD "")⟩),
       { S with fitted := fitIfDirtyU S, dirty := false }) := by
  simp only [tseries.getU, hm, interpHelperU, fitIfDirtyU]
  rw [if_pos hc, if_neg (Nat.not_le.2 hs)]
  cases hd : S.dirty <;> split <;> simp_all

/-- `getU` on a miss below the cutoff with at most one sample. -/
theorem getU_miss_insufficient (F : List (ℚ × ℚ) → ℚ → ℚ) (S : tseries unitval)
    (t : ℚ) (hm : mapFind t S.mapdata = none) (hc : t < S.lastInterpYear)
    (hs : S.mapdata.length ≤ 1) :
    tseries.getU F S t = (.error .InsufficientSamples, S) := by
  simp only [tseries.getU, hm, interpHelperU]
  rw [if_pos hc, if_pos hs]

/-- `getU` on a miss at or beyond the cutoff. -/
theorem getU_miss_refused (F : List (ℚ × ℚ) → ℚ → ℚ) (S : tseries unitval)
    (t : ℚ) (hm : mapFind t S.mapdata = none) (hc : ¬ t < S.lastInterpYear) :
    tseries.getU F S t = (.error .InterpolationNotPermitted, S) := by
  simp only [tseries.getU, hm]
  rw [if_neg hc]

/-- In a strictly key-sorted association list, the head key bounds every key
from below (the head is the earliest sample). -/
theorem chain_head_le (t0 : ℚ) (v0 : α) (l : List (ℚ × α))
    (h : List.Chain' (fun a b : ℚ × α => a.1 < b.1) ((t0, v0) :: l)) :
    ∀ p ∈ (t0, v0) :: l, t0 ≤ p.1 := by
  induction l generalizing t0 v0 with
  | nil =>
    intro p hp
    rw [List.mem_singleton.1 hp]
  | cons q rest ih =>
    intro p hp
    have h1 : t0 < q.1 := (List.chain'_cons.1 h).1
    have h2 : List.Chain' (fun a b : ℚ × α => a.1 < b.1) ((q.1, q.2) :: rest) := by
      simpa using (List.chain'_cons.1 h).2
    rcases List.mem_cons.1 hp with hp0 | hp1
    · rw [hp0]
    · have h3 : p ∈ (q.1, q.2) :: rest := by simpa using hp1
      exact le_trans (le_of_lt h1) (ih q.1 q.2 h2 p h3)

/-- C9: for a unitval series, any value returned by `get` via interpolation
(a miss, necessarily with at least two and strictly sorted samples) carries
exactly the unit of the series' first — earliest-time — sample, and its
numeric magnitude is exactly the engine's evaluation of the fitted data. -/
theorem c9_unit_preservation (F : List (ℚ × ℚ) → ℚ → ℚ) (S : tseries unitval)
    (t t0 : ℚ) (v0 : unitval) (rest : List (ℚ × unitval)) (u : unitval)
    (hsort : List.Chain' (fun a b : ℚ × unitval => a.1 < b.1) S.mapdata)
    (hhead : S.mapdata = (t0, v0) :: rest)
    (hm : mapFind t S.mapdata = none)
    (hok : (tseries.getU F S t).1 = .ok u) :
    u.units = v0.units ∧ (∀ p ∈ S.mapdata, t0 ≤ p.1) ∧
    u.val = F (fitIfDirtyU S) t := by
  have hearliest : ∀ p ∈ S.mapdata, t0 ≤ p.1 := by
    rw [hhead] at hsort ⊢
    exact chain_head_le t0 v0 rest hsort
  by_cases hc : t < S.lastInterpYear
  · by_cases hs : 1 < S.mapdata.length
    · have e1 := getU_miss F S t hm hc hs
      by_cases hgate :
          (t < firstKey S.mapdata ∨ lastKey S.mapdata < t) ∧ S.endinterp_allowed = false
      · rw [e1, if_pos hgate] at hok; exact absurd hok (by simp)
      · rw [e1, if_neg hgate] at hok
        have hu := Except.ok.inj hok
        refine ⟨?_, hearliest, ?_⟩
        · rw [← hu]; simp [hhead]
        · rw [← hu]
    · rw [getU_miss_insufficient F S t hm hc (Nat.not_lt.1 hs)] at hok
      exact absurd hok (by simp)
  · rw [getU_miss_refused F S t hm hc] at hok
    exact absurd hok (by simp)

/-- A unitval series with two samples (deliberately in different units: the
common-unit assumption is documented, not enforced). -/
def c9S : tseries unitval :=
  (tseries.new.set (-2) ⟨10, "PgC"⟩).set (-1) ⟨20, "W"⟩

theorem c9_unit_preservation_witness :
    (unitval.mk 0 "PgC").units = (unitval.mk 10 "PgC").units ∧
    (∀ p ∈ c9S.mapdata, (-2:ℚ) ≤ p.1) ∧
    (unitval.mk 0 "PgC").val = cF (fitIfDirtyU c9S) (mkRat (-3) 2) :=
  c9_unit_preservation cF c9S (mkRat (-3) 2) (-2) ⟨10, "PgC"⟩
    [((-1:ℚ), ⟨20, "W"⟩)] ⟨0, "PgC"⟩
    (by
      rw [show c9S.mapdata
          = [((-2:ℚ), unitval.mk 10 "PgC"), ((-1:ℚ), unitval.mk 20 "W")] from by decide]
      rw [List.chain'_cons]
      exact ⟨by norm_num, List.chain'_singleton _⟩)
    (by decide) (by decide) (by decide)

end HectorModel
